import Mathlib

/-!
Verification of the filtering-and-aggregation pipeline of the ABA analytics
dashboard (`src/app/page.tsx`, data shapes from `src/lib/mockData.ts`).

Modelling conventions:
* JavaScript numbers are modelled as `ℚ` (every value the theorems evaluate is
  exact in binary64, so the rational model is faithful); trial counts are `ℕ`.
* A JS `Date` is modelled by its calendar fields (`year`, 0-based `month`,
  `day`); `getTime`-based comparison of such dates is the lexicographic order.
* `Array.prototype.filter` / `find` / `reduce` become `List.filter` /
  `List.find?` / `List.foldl`; a plain JS object used as a string-keyed
  accumulator becomes an association list in first-insertion order, exactly as
  JS objects enumerate string keys; `new Set(xs).size` becomes
  `xs.dedup.length` (same cardinality); `Array.prototype.sort` with a
  numeric comparator becomes `List.mergeSort` with the corresponding boolean
  relation.
* The unguarded accuracy divisions compute `0/0 = NaN` in JS; `NaN` is
  modelled as `none : Option ℚ` and a defined value `q` as `some q`.
  `Number.prototype.toFixed(1)` is modelled as the identity on the exact
  rational: the theorems below depend only on whether an accuracy is `NaN`
  and on values where 1-decimal rounding is the identity.
-/

namespace Dashboard

/-- Calendar view of a JS `Date` (month is 0-based, as in JS). -/
structure JsDate where
  year : Nat
  month : Nat
  day : Nat
deriving DecidableEq, Repr

/-- `a.getTime() <= b.getTime()` for calendar dates: lexicographic order. -/
def dateLe (a b : JsDate) : Bool :=
  decide (a.year < b.year ∨ (a.year = b.year ∧
    (a.month < b.month ∨ (a.month = b.month ∧ a.day ≤ b.day))))

/-- `isWithinInterval(d, {start, end})` from date-fns: inclusive on both ends. -/
def isWithinInterval (d s e : JsDate) : Bool :=
  dateLe s d && dateLe d e

/-- `Client` from `src/lib/mockData.ts`. -/
structure Client where
  id : String
  name : String
  age : Nat
  diagnosisDate : JsDate
  therapist : String
  status : String
deriving DecidableEq, Repr

/-- `Program` from `src/lib/mockData.ts`. -/
structure Program where
  id : String
  name : String
  category : String
  targetCount : Nat
deriving DecidableEq, Repr

/-- `Target` from `src/lib/mockData.ts` (mastery is a JS number, 0–100). -/
structure Target where
  id : String
  programId : String
  name : String
  mastery : ℚ
  trials : Nat
  successRate : ℚ
deriving DecidableEq, Repr

/-- `DataPoint` (one session event) from `src/lib/mockData.ts`. -/
structure DataPoint where
  date : JsDate
  clientId : String
  programId : String
  targetId : String
  correct : Nat
  incorrect : Nat
  sessionDuration : Nat
deriving DecidableEq, Repr

/-- The `Filters` state of `src/app/page.tsx` (the Filter Specification);
`dateRange = {start, end}` is flattened into two fields. -/
structure Filters where
  clientIds : List String
  programIds : List String
  categories : List String
  therapists : List String
  dateStart : JsDate
  dateEnd : JsDate
  targetIds : List String
  minMastery : ℚ
  maxMastery : ℚ
deriving DecidableEq, Repr

/-- The per-event predicate inside `filteredData` (`src/app/page.tsx` lines
62–85).  Each early `return false` of the source becomes one negated
conjunct, in source order; the three `find` lookups become `List.find?`. -/
def dpPasses (f : Filters) (allTargets : List Target) (allPrograms : List Program)
    (clients : List Client) (dp : DataPoint) : Bool :=
  !(f.clientIds.length != 0 && !(f.clientIds.contains dp.clientId)) &&
  !(f.programIds.length != 0 && !(f.programIds.contains dp.programId)) &&
  !(f.targetIds.length != 0 && !(f.targetIds.contains dp.targetId)) &&
  !(match allTargets.find? (fun t => t.id == dp.targetId) with
    | some t => decide (t.mastery < f.minMastery) || decide (t.mastery > f.maxMastery)
    | none => false) &&
  !(match allPrograms.find? (fun p => p.id == dp.programId) with
    | some p => f.categories.length != 0 && !(f.categories.contains p.category)
    | none => false) &&
  !(match clients.find? (fun c => c.id == dp.clientId) with
    | some c => f.therapists.length != 0 && !(f.therapists.contains c.therapist)
    | none => false) &&
  isWithinInterval dp.date f.dateStart f.dateEnd

/-- `filteredData` (`src/app/page.tsx` lines 61–86): the Filter Predicate
Evaluator, `dataPoints.filter(dp => ...)`. -/
def filteredData (f : Filters) (allTargets : List Target) (allPrograms : List Program)
    (clients : List Client) (dataPoints : List DataPoint) : List DataPoint :=
  dataPoints.filter (dpPasses f allTargets allPrograms clients)

/-- Modelled from the spec: the conjunction of facet predicates of §4.1 —
each selection set is empty or contains the event's value, the mastery /
category / therapist predicates are skipped when the target / program /
client id does not resolve, and the date lies in the inclusive interval. -/
def passesSpec (f : Filters) (allTargets : List Target) (allPrograms : List Program)
    (clients : List Client) (dp : DataPoint) : Prop :=
  (f.clientIds = [] ∨ dp.clientId ∈ f.clientIds) ∧
  (f.programIds = [] ∨ dp.programId ∈ f.programIds) ∧
  (f.targetIds = [] ∨ dp.targetId ∈ f.targetIds) ∧
  (match allTargets.find? (fun t => t.id == dp.targetId) with
   | some t => f.minMastery ≤ t.mastery ∧ t.mastery ≤ f.maxMastery
   | none => True) ∧
  (f.categories = [] ∨
    match allPrograms.find? (fun p => p.id == dp.programId) with
    | some p => p.category ∈ f.categories
    | none => True) ∧
  (f.therapists = [] ∨
    match clients.find? (fun c => c.id == dp.clientId) with
    | some c => c.therapist ∈ f.therapists
    | none => True) ∧
  (dateLe f.dateStart dp.date = true ∧ dateLe dp.date f.dateEnd = true)

theorem contains_true_iff {α} [BEq α] [LawfulBEq α] (l : List α) (a : α) :
    l.contains a = true ↔ a ∈ l := List.elem_iff

theorem facet_off_iff (l : List String) (a : String) :
    ((l.length != 0 && !(l.contains a)) = false) ↔ (l = [] ∨ a ∈ l) := by
  rw [← Bool.not_eq_true]
  simp [contains_true_iff, List.length_eq_zero, or_iff_not_imp_left]

theorem dpPasses_iff (f : Filters) (tA : List Target) (tP : List Program)
    (tC : List Client) (dp : DataPoint) :
    dpPasses f tA tP tC dp = true ↔ passesSpec f tA tP tC dp := by
  unfold dpPasses passesSpec isWithinInterval
  simp only [Bool.and_eq_true, Bool.not_eq_true', and_assoc]
  refine and_congr (facet_off_iff _ _) (and_congr (facet_off_iff _ _)
    (and_congr (facet_off_iff _ _) (and_congr ?_ (and_congr ?_
      (and_congr ?_ Iff.rfl)))))
  · cases h : tA.find? (fun t => t.id == dp.targetId)
    · simp
    · rw [← Bool.not_eq_true]
      simp [not_or, not_lt]
  · cases h : tP.find? (fun p => p.id == dp.programId)
    · simp
    · simpa using facet_off_iff f.categories _
  · cases h : tC.find? (fun c => c.id == dp.clientId)
    · simp
    · simpa using facet_off_iff f.therapists _

/-- C1: an event is kept by the Filter Predicate Evaluator iff it is in the
input log and all facet predicates of §4.1 hold — selection sets restrict
only when non-empty, the mastery / category / therapist predicates are
skipped on unresolved foreign keys, and the date lies in the inclusive
interval. -/
theorem filteredData_mem_iff (f : Filters) (tA : List Target) (tP : List Program)
    (tC : List Client) (events : List DataPoint) (dp : DataPoint) :
    dp ∈ filteredData f tA tP tC events ↔ dp ∈ events ∧ passesSpec f tA tP tC dp := by
  unfold filteredData
  rw [List.mem_filter, dpPasses_iff]

/-- The record returned by the `stats` memo (`src/app/page.tsx` lines
104–109): exactly the four fields of the returned object literal. -/
structure Stats where
  activeClients : Nat
  avgAccuracy : ℚ
  activePrograms : Nat
  masteredTargets : Nat
deriving DecidableEq, Repr

/-- The `totalTrials` binding inside `stats`:
`filteredData.reduce((sum, d) => sum + d.correct + d.incorrect, 0)`. -/
def totalTrials (fd : List DataPoint) : Nat :=
  fd.foldl (fun sum d => sum + d.correct + d.incorrect) 0

/-- The `correctTrials` binding inside `stats`:
`filteredData.reduce((sum, d) => sum + d.correct, 0)`. -/
def correctTrials (fd : List DataPoint) : Nat :=
  fd.foldl (fun sum d => sum + d.correct) 0

/-- The Summary Counter `stats` (`src/app/page.tsx` lines 88–110).
`filters.clientIds.length || setSize` is JS `||` on numbers: the length when
it is non-zero, the distinct count otherwise; a `Set`'s size is the length of
the deduplicated list. -/
def stats (allTargets : List Target) (clientIds : List String)
    (fd : List DataPoint) : Stats :=
  let activeClients :=
    if clientIds.length != 0 then clientIds.length
    else ((fd.map (fun d => d.clientId)).dedup).length
  let tt := totalTrials fd
  let ct := correctTrials fd
  let avgAccuracy : ℚ := if tt > 0 then (ct : ℚ) / (tt : ℚ) * 100 else 0
  let activePrograms := ((fd.map (fun d => d.programId)).dedup).length
  let targetSet := (fd.map (fun d => d.targetId)).dedup
  let masteredTargets :=
    ((targetSet.map (fun tid => allTargets.find? (fun t => t.id == tid))).filter
      (fun o => match o with
        | some t => decide (t.mastery ≥ 80)
        | none => false)).length
  ⟨activeClients, avgAccuracy, activePrograms, masteredTargets⟩

/-- JS property access on the object returned by `stats`: reading a key the
object literal does not define yields `undefined`, modelled as `none`. -/
def Stats.lookup (s : Stats) (key : String) : Option ℚ :=
  if key == ("activeClients") then some (s.activeClients : ℚ)
  else if key == ("avgAccuracy") then some s.avgAccuracy
  else if key == ("activePrograms") then some (s.activePrograms : ℚ)
  else if key == ("masteredTargets") then some (s.masteredTargets : ℚ)
  else none

/-- Concrete fixture: the scenario event of spec §8
(`{date: 2024-03-01, clientId: c1, programId: p1, targetId: t1, correct: 8,
incorrect: 2}`; JS month 2 is March). -/
def ev0 : DataPoint := ⟨⟨2024, 2, 1⟩, "c1", "p1", "t1", 8, 2, 30⟩

/-- Concrete fixture target `t1` of program `p1`, mastery 50. -/
def tgt1 : Target := ⟨"t1", "p1", "Request for water", 50, 100, 50⟩

/-- Concrete fixture program `p1`. -/
def prog1 : Program := ⟨"p1", "Requesting", "Communication", 12⟩

/-- Concrete fixture client `c1`. -/
def cli1 : Client := ⟨"c1", "Emma Johnson", 5, ⟨2021, 0, 1⟩, "Dr. Sarah Mitchell", "Active"⟩

/-- Concrete fixture Filter Specification: every facet empty, full mastery
range, date range covering 2024. -/
def f0 : Filters := ⟨[], [], [], [], ⟨2024, 0, 1⟩, ⟨2024, 11, 1⟩, [], 0, 100⟩

/-- C2: with all five selection sets empty, the full mastery range [0, 100]
(masteries being 0–100 per the §6 data contract), and a date interval
containing every event's date, the Filter Predicate Evaluator returns the
full Event Log. -/
theorem filteredData_identity (f : Filters) (tA : List Target) (tP : List Program)
    (tC : List Client) (events : List DataPoint)
    (hc : f.clientIds = []) (hp : f.programIds = []) (ht : f.targetIds = [])
    (hcat : f.categories = []) (hth : f.therapists = [])
    (hmin : f.minMastery = 0) (hmax : f.maxMastery = 100)
    (hm : ∀ t ∈ tA, 0 ≤ t.mastery ∧ t.mastery ≤ 100)
    (hd : ∀ dp ∈ events, isWithinInterval dp.date f.dateStart f.dateEnd = true) :
    filteredData f tA tP tC events = events := by
  unfold filteredData
  apply List.filter_eq_self.mpr
  intro dp hdp
  rw [dpPasses_iff]
  unfold passesSpec
  refine ⟨Or.inl hc, Or.inl hp, Or.inl ht, ?_, Or.inl hcat, Or.inl hth, ?_⟩
  · cases h : tA.find? (fun t => t.id == dp.targetId) with
    | none => trivial
    | some t =>
      rw [hmin, hmax]
      exact hm t (List.mem_of_find?_eq_some h)
  · have hdd := hd dp hdp
    unfold isWithinInterval at hdd
    exact Bool.and_eq_true_iff.mp hdd

/-- Witness for C2 at a concrete log, tables, and specification. -/
theorem filteredData_identity_witness :
    filteredData f0 [tgt1] [prog1] [cli1] [ev0] = [ev0] :=
  filteredData_identity f0 [tgt1] [prog1] [cli1] [ev0]
    rfl rfl rfl rfl rfl rfl rfl (by decide) (by decide)

/-- C3: the Filter Predicate Evaluator's output is an order-preserving
subsequence of the input Event Log — every returned event occurs in the
input, in the input's relative order (the embedding is a pure function of
its inputs, so nothing is mutated). -/
theorem filteredData_sublist (f : Filters) (tA : List Target) (tP : List Program)
    (tC : List Client) (events : List DataPoint) :
    List.Sublist (filteredData f tA tP tC events) events ∧
    ∀ dp ∈ filteredData f tA tP tC events, dp ∈ events :=
  ⟨List.filter_sublist _, fun _ h => (List.mem_filter.mp h).1⟩

/-- C4: `activeClients` is the size of `spec.clientIds` whenever that list is
non-empty (regardless of which clients contribute events), and otherwise the
number of distinct client ids in the filtered subset. -/
theorem stats_activeClients (tA : List Target) (cls : List String) (fd : List DataPoint) :
    (cls ≠ [] → (stats tA cls fd).activeClients = cls.length) ∧
    (cls = [] → (stats tA cls fd).activeClients =
      (fd.map (fun d => d.clientId)).toFinset.card) := by
  constructor
  · intro h
    unfold stats
    simp [List.length_eq_zero, h]
  · intro h
    subst h
    unfold stats
    simp [List.card_toFinset]

/-- Witness for C4: two selected clients with one of them (`c2`) contributing
no events still report 2; with no selection, one distinct client reports 1. -/
theorem stats_activeClients_witness :
    (stats [] [("c1"), ("c2")] [ev0]).activeClients = 2 ∧
    (stats [] [] [ev0]).activeClients = 1 :=
  ⟨(stats_activeClients [] [("c1"), ("c2")] [ev0]).1 (by decide),
   ((stats_activeClients [] [] [ev0]).2 rfl).trans (by decide)⟩

/-- C5 counterexample: the record returned by the Summary Counter has no
`totalTrials` field — reading that key from the scenario output yields JS
`undefined` (`none`), not the sum 10. -/
theorem stats_no_totalTrials_field :
    Stats.lookup (stats [tgt1] [] [ev0]) ("totalTrials") ≠ some ((10 : ℚ)) := by
  decide

theorem totalTrials_foldl_general (l : List DataPoint) : ∀ n : Nat,
    l.foldl (fun sum d => sum + d.correct + d.incorrect) n =
      n + (l.map (fun d => d.correct + d.incorrect)).sum := by
  induction l with
  | nil => intro n; simp
  | cons d l ih => intro n; rw [List.foldl_cons, ih]; simp; omega

theorem correctTrials_foldl_general (l : List DataPoint) : ∀ n : Nat,
    l.foldl (fun sum d => sum + d.correct) n =
      n + (l.map (fun d => d.correct)).sum := by
  induction l with
  | nil => intro n; simp
  | cons d l ih => intro n; rw [List.foldl_cons, ih]; simp; omega

/-- C5 amended: the Summary Counter computes `totalTrials` and
`correctTrials` internally as the sums of correct+incorrect and correct over
the subset and derives `avgAccuracy` from them (80.0 for the scenario event
with correct = 8, incorrect = 2); the returned record itself does not carry
the two sums as fields. -/
theorem stats_trials_sums (l : List DataPoint) :
    totalTrials l = (l.map (fun d => d.correct + d.incorrect)).sum ∧
    correctTrials l = (l.map (fun d => d.correct)).sum ∧
    totalTrials [ev0] = 10 ∧ correctTrials [ev0] = 8 ∧
    (stats [tgt1] [] [ev0]).avgAccuracy = 80 := by
  refine ⟨?_, ?_, by decide, by decide,
    by norm_num [stats, totalTrials, correctTrials, ev0]⟩
  · rw [totalTrials, totalTrials_foldl_general]
    omega
  · rw [correctTrials, correctTrials_foldl_general]
    omega

/-- Concrete fixture Filter Specification with inverted mastery range
(minMastery 60 > maxMastery 40). -/
def fInv : Filters := ⟨[], [], [], [], ⟨2024, 0, 1⟩, ⟨2024, 11, 1⟩, [], 60, 40⟩

/-- C9: when minMastery > maxMastery, every event whose target id resolves in
the Target table is excluded by the Filter Predicate Evaluator (no error, a
degenerate but defined result). -/
theorem inverted_mastery_excludes (f : Filters) (tA : List Target) (tP : List Program)
    (tC : List Client) (dp : DataPoint) (events : List DataPoint)
    (hlt : f.maxMastery < f.minMastery)
    (ht : (tA.find? (fun t => t.id == dp.targetId)).isSome = true) :
    dp ∉ filteredData f tA tP tC events := by
  intro hmem
  unfold filteredData at hmem
  rw [List.mem_filter] at hmem
  have hp := (dpPasses_iff f tA tP tC dp).mp hmem.2
  obtain ⟨t, htt⟩ := Option.isSome_iff_exists.mp ht
  have hmast := hp.2.2.2.1
  rw [htt] at hmast
  have h1 : f.minMastery ≤ t.mastery := hmast.1
  have h2 : t.mastery ≤ f.maxMastery := hmast.2
  linarith

/-- Witness for C9: with minMastery 60 > maxMastery 40, the scenario event
(whose target `t1` resolves) is excluded. -/
theorem inverted_mastery_excludes_witness :
    ev0 ∉ filteredData fInv [tgt1] [prog1] [cli1] [ev0] :=
  inverted_mastery_excludes fInv [tgt1] [prog1] [cli1] ev0 [ev0]
    (by norm_num [fInv]) (by decide)

/-- The month-year grouping key: the `'MMM yyyy'` label of `format` is in
bijection with the (year, 0-based month) pair, and `new Date(label)` re-derives
exactly this pair (with day 1), so the label is modelled by the pair. -/
structure MonthKey where
  year : Nat
  month : Nat
deriving DecidableEq, Repr

/-- `format(dp.date, 'MMM yyyy')` as a grouping key. -/
def monthKeyOf (d : JsDate) : MonthKey := ⟨d.year, d.month⟩

/-- Adding a key to a JS object keyed by month labels: a new key goes to the
end of the enumeration order, an existing key leaves it unchanged. -/
def insertKey (acc : List MonthKey) (k : MonthKey) : List MonthKey :=
  if k ∈ acc then acc else acc ++ [k]

/-- Enumeration order of the `monthlyData` object's keys after the `forEach`
over the filtered subset (first-encounter order). -/
def monthKeys (fd : List DataPoint) : List MonthKey :=
  fd.foldl (fun acc dp => insertKey acc (monthKeyOf dp.date)) []

/-- Accumulated `correct` of one month bucket. -/
def monthCorrect (fd : List DataPoint) (k : MonthKey) : Nat :=
  ((fd.filter (fun dp => monthKeyOf dp.date == k)).map (fun d => d.correct)).sum

/-- Accumulated `incorrect` of one month bucket. -/
def monthIncorrect (fd : List DataPoint) (k : MonthKey) : Nat :=
  ((fd.filter (fun dp => monthKeyOf dp.date == k)).map (fun d => d.incorrect)).sum

/-- `Object.values(monthlyData)`: one bucket per month key, in insertion
order, carrying the per-month sums. -/
def monthlyBuckets (fd : List DataPoint) : List (MonthKey × Nat × Nat) :=
  (monthKeys fd).map (fun k => (k, monthCorrect fd k, monthIncorrect fd k))

/-- The sort comparator `new Date(a.date).getTime() - new Date(b.date).getTime()`
on re-derived month dates, as a boolean "may come before": year, then month. -/
def monthLe (a b : MonthKey) : Bool :=
  decide (a.year < b.year ∨ (a.year = b.year ∧ a.month ≤ b.month))

/-- Strict chronological order on month keys. -/
def monthLt (a b : MonthKey) : Prop :=
  a.year < b.year ∨ (a.year = b.year ∧ a.month < b.month)

/-- One point of `cumulativeGraphData` (`month`, `cumulative`, `accuracy`,
`trials`); the guarded accuracy is the exact rational value, with sentinel 0
for the zero-trials branch. -/
structure GraphPoint where
  month : MonthKey
  cumulative : Nat
  accuracy : ℚ
  trials : Nat
deriving DecidableEq, Repr

/-- The running-total `sorted.map(...)` pass of `cumulativeGraphData`, with the
mutable `cumulativeCorrect` / `cumulativeIncorrect` accumulators made explicit. -/
def cumulScan : Nat → Nat → List (MonthKey × Nat × Nat) → List GraphPoint
  | _, _, [] => []
  | cc, ci, b :: rest =>
    let cc2 := cc + b.2.1
    let ci2 := ci + b.2.2
    let total := cc2 + ci2
    ⟨b.1, cc2, if total > 0 then (cc2 : ℚ) / (total : ℚ) * 100 else 0, total⟩ ::
      cumulScan cc2 ci2 rest

/-- The Monthly Cumulative Reducer `cumulativeGraphData`
(`src/app/page.tsx` lines 112–142): group by month label, sort the buckets by
re-derived month dates, then scan left-to-right accumulating totals. -/
def cumulativeGraphData (fd : List DataPoint) : List GraphPoint :=
  cumulScan 0 0 ((monthlyBuckets fd).mergeSort (fun a b => monthLe a.1 b.1))

theorem insertKey_mem (acc : List MonthKey) (k x : MonthKey) :
    x ∈ insertKey acc k ↔ x ∈ acc ∨ x = k := by
  unfold insertKey
  split
  · rename_i h
    constructor
    · exact Or.inl
    · rintro (hx | rfl)
      · exact hx
      · exact h
  · simp

theorem insertKey_nodup (acc : List MonthKey) (k : MonthKey) (h : acc.Nodup) :
    (insertKey acc k).Nodup := by
  unfold insertKey
  split
  · exact h
  · rename_i hk
    rw [List.nodup_append]
    exact ⟨h, List.nodup_singleton k, by simpa using fun hkk => hk hkk⟩

theorem monthKeys_foldl_mem (fd : List DataPoint) : ∀ (acc : List MonthKey) (x : MonthKey),
    x ∈ fd.foldl (fun acc dp => insertKey acc (monthKeyOf dp.date)) acc ↔
      x ∈ acc ∨ ∃ dp ∈ fd, monthKeyOf dp.date = x := by
  induction fd with
  | nil => simp
  | cons d fd ih =>
    intro acc x
    rw [List.foldl_cons, ih, insertKey_mem]
    simp only [List.mem_cons]
    constructor
    · rintro ((hx | rfl) | ⟨dp, hdp, hk⟩)
      · exact Or.inl hx
      · exact Or.inr ⟨d, Or.inl rfl, rfl⟩
      · exact Or.inr ⟨dp, Or.inr hdp, hk⟩
    · rintro (hx | ⟨dp, hdp | hdp, hk⟩)
      · exact Or.inl (Or.inl hx)
      · subst hdp; exact Or.inl (Or.inr hk.symm)
      · exact Or.inr ⟨dp, hdp, hk⟩

theorem monthKeys_foldl_nodup (fd : List DataPoint) : ∀ acc : List MonthKey,
    acc.Nodup → (fd.foldl (fun acc dp => insertKey acc (monthKeyOf dp.date)) acc).Nodup := by
  induction fd with
  | nil => exact fun _ h => h
  | cons d fd ih =>
    intro acc h
    exact ih _ (insertKey_nodup acc _ h)

theorem monthKeys_mem (fd : List DataPoint) (x : MonthKey) :
    x ∈ monthKeys fd ↔ ∃ dp ∈ fd, monthKeyOf dp.date = x := by
  unfold monthKeys
  rw [monthKeys_foldl_mem]
  simp

theorem monthKeys_nodup (fd : List DataPoint) : (monthKeys fd).Nodup :=
  monthKeys_foldl_nodup fd [] List.nodup_nil

theorem cumulScan_months (bs : List (MonthKey × Nat × Nat)) : ∀ cc ci : Nat,
    (cumulScan cc ci bs).map GraphPoint.month = bs.map (fun b => b.1) := by
  induction bs with
  | nil => intro cc ci; rfl
  | cons b bs ih => intro cc ci; simp [cumulScan, ih]

theorem cumulScan_chain (bs : List (MonthKey × Nat × Nat)) : ∀ cc ci : Nat,
    ((cumulScan cc ci bs).map GraphPoint.cumulative).Chain' (· ≤ ·) ∧
    ∀ x ∈ ((cumulScan cc ci bs).map GraphPoint.cumulative).head?, cc ≤ x := by
  induction bs with
  | nil => intro cc ci; simp [cumulScan]
  | cons b bs ih =>
    intro cc ci
    simp only [cumulScan, List.map_cons]
    constructor
    · rw [List.chain'_cons']
      refine ⟨fun y hy => ?_, (ih _ _).1⟩
      have := (ih (cc + b.2.1) (ci + b.2.2)).2 y hy
      omega
    · intro x hx
      simp only [List.head?_cons, Option.mem_def, Option.some.injEq] at hx
      omega

theorem monthLe_trans (a b c : MonthKey × Nat × Nat) :
    monthLe a.1 b.1 → monthLe b.1 c.1 → monthLe a.1 c.1 := by
  simp only [monthLe, decide_eq_true_eq]
  omega

theorem monthLe_total (a b : MonthKey × Nat × Nat) :
    (monthLe a.1 b.1 || monthLe b.1 a.1) = true := by
  simp only [monthLe, Bool.or_eq_true, decide_eq_true_eq]
  omega

theorem monthLe_ne_lt {x y : MonthKey} (h1 : monthLe x y = true) (h2 : x ≠ y) :
    monthLt x y := by
  rw [monthLe, decide_eq_true_eq] at h1
  rcases h1 with h | ⟨hy, hm⟩
  · exact Or.inl h
  · refine Or.inr ⟨hy, lt_of_le_of_ne hm fun he => h2 ?_⟩
    cases x; cases y
    simp_all

/-- C7: the Monthly Cumulative Reducer emits exactly one point per month-year
present in the filtered subset, its points are in strictly increasing
chronological order of the re-derived month dates, and the cumulative correct
count is non-decreasing across consecutive points. -/
theorem cumulativeGraphData_spec (fd : List DataPoint) :
    ((cumulativeGraphData fd).map GraphPoint.month).Nodup ∧
    (∀ k, k ∈ (cumulativeGraphData fd).map GraphPoint.month ↔
      ∃ dp ∈ fd, monthKeyOf dp.date = k) ∧
    ((cumulativeGraphData fd).map GraphPoint.month).Pairwise monthLt ∧
    ((cumulativeGraphData fd).map GraphPoint.cumulative).Chain' (· ≤ ·) := by
  have hmonths : (cumulativeGraphData fd).map GraphPoint.month =
      ((monthlyBuckets fd).mergeSort (fun a b => monthLe a.1 b.1)).map (fun b => b.1) :=
    cumulScan_months _ 0 0
  have hperm : List.Perm
      (((monthlyBuckets fd).mergeSort (fun a b => monthLe a.1 b.1)).map (fun b => b.1))
      ((monthlyBuckets fd).map (fun b => b.1)) :=
    (List.mergeSort_perm _ _).map _
  have hfst : (monthlyBuckets fd).map (fun b => b.1) = monthKeys fd := by
    unfold monthlyBuckets
    rw [List.map_map]
    exact List.map_id'' (fun _ => rfl) _
  have hnd : ((cumulativeGraphData fd).map GraphPoint.month).Nodup := by
    rw [hmonths, hperm.nodup_iff, hfst]
    exact monthKeys_nodup fd
  refine ⟨hnd, fun k => ?_, ?_, (cumulScan_chain _ 0 0).1⟩
  · rw [hmonths, hperm.mem_iff, hfst]
    exact monthKeys_mem fd k
  · have hsorted := List.sorted_mergeSort monthLe_trans monthLe_total (monthlyBuckets fd)
    have hple : ((cumulativeGraphData fd).map GraphPoint.month).Pairwise
        (fun x y => monthLe x y = true) := by
      rw [hmonths]
      exact List.pairwise_map.mpr hsorted
    have hne : ((cumulativeGraphData fd).map GraphPoint.month).Pairwise (· ≠ ·) := hnd
    exact (hple.and hne).imp fun h => monthLe_ne_lt h.1 h.2

/-- `correct/(correct+incorrect) * 100` as computed by the unguarded accuracy
expressions: JS `0/0` is `NaN`, modelled as `none`; otherwise the exact
rational (`toFixed(1)` is modelled as the identity, see the module comment). -/
def jsAccuracy (c i : Nat) : Option ℚ :=
  if c + i = 0 then none else some ((c : ℚ) / ((c : ℚ) + (i : ℚ)) * 100)

/-- One entry of the `programStats` accumulator object keyed by program id. -/
structure ProgAcc where
  id : String
  program : String
  correct : Nat
  incorrect : Nat
deriving DecidableEq, Repr

/-- One `forEach` step of `programBreakdown`: create the bucket on first
encounter, otherwise accumulate into it. -/
def bumpProg (acc : List ProgAcc) (p : Program) (dp : DataPoint) : List ProgAcc :=
  if acc.any (fun e => e.id == p.id) then
    acc.map (fun e =>
      if e.id == p.id then
        { e with correct := e.correct + dp.correct, incorrect := e.incorrect + dp.incorrect }
      else e)
  else acc ++ [⟨p.id, p.name, dp.correct, dp.incorrect⟩]

/-- `Object.values(programStats)` after the `forEach` of `programBreakdown`:
events whose program id does not resolve are dropped. -/
def progGroups (allPrograms : List Program) (fd : List DataPoint) : List ProgAcc :=
  fd.foldl (fun acc dp =>
    match allPrograms.find? (fun p => p.id == dp.programId) with
    | none => acc
    | some p => bumpProg acc p dp) []

/-- One emitted row of the Program Breakdown Reducer. -/
structure ProgRow where
  program : String
  correct : Nat
  incorrect : Nat
  accuracy : Option ℚ
  total : Nat
deriving DecidableEq, Repr

/-- `programBreakdown` (`src/app/page.tsx` lines 144–163): group by resolved
program, emit rows with the *unguarded* accuracy division, sort descending by
total trials. -/
def programBreakdown (allPrograms : List Program) (fd : List DataPoint) : List ProgRow :=
  ((progGroups allPrograms fd).map (fun e =>
    ⟨e.program, e.correct, e.incorrect, jsAccuracy e.correct e.incorrect,
     e.correct + e.incorrect⟩)).mergeSort (fun a b => decide (b.total ≤ a.total))

/-- One entry of the `targetStats` accumulator object keyed by target id. -/
structure TargetAcc where
  target : Target
  correct : Nat
  incorrect : Nat
  sessions : Nat
deriving DecidableEq, Repr

/-- One `forEach` step of `targetDrillDown`: create the bucket on first
encounter, otherwise accumulate trials and one session per event. -/
def bumpTarget (acc : List TargetAcc) (t : Target) (dp : DataPoint) : List TargetAcc :=
  if acc.any (fun e => e.target.id == t.id) then
    acc.map (fun e =>
      if e.target.id == t.id then
        { e with correct := e.correct + dp.correct,
                 incorrect := e.incorrect + dp.incorrect,
                 sessions := e.sessions + 1 }
      else e)
  else acc ++ [⟨t, dp.correct, dp.incorrect, 1⟩]

/-- `Object.values(targetStats)` after the `forEach` of `targetDrillDown`:
events whose target id does not resolve are dropped. -/
def targetGroups (allTargets : List Target) (fd : List DataPoint) : List TargetAcc :=
  fd.foldl (fun acc dp =>
    match allTargets.find? (fun t => t.id == dp.targetId) with
    | none => acc
    | some t => bumpTarget acc t dp) []

/-- One emitted row of the Target Drill-Down Reducer. -/
structure DrillRow where
  id : String
  name : String
  mastery : ℚ
  correct : Nat
  incorrect : Nat
  sessions : Nat
  accuracy : Option ℚ
  total : Nat
  program : String
deriving DecidableEq, Repr

/-- `targetDrillDown` (`src/app/page.tsx` lines 165–198): optionally narrow to
the focused target id, group by resolved target, emit rows with the
*unguarded* accuracy division and the resolved program name (`''` when the
program id does not resolve), sort descending by total trials.
`drillDownTarget ? ... : ...` tests JS truthiness of a `string | null`: both
`null` and the empty string are falsy and take the unfocused branch. -/
def targetDrillDown (drillDownTarget : Option String) (allTargets : List Target)
    (allPrograms : List Program) (fd : List DataPoint) : List DrillRow :=
  let relevantData := match drillDownTarget with
    | some tid => if tid != ("") then fd.filter (fun d => d.targetId == tid) else fd
    | none => fd
  ((targetGroups allTargets relevantData).map (fun e =>
    ⟨e.target.id, e.target.name, e.target.mastery, e.correct, e.incorrect, e.sessions,
     jsAccuracy e.correct e.incorrect, e.correct + e.incorrect,
     match allPrograms.find? (fun p => p.id == e.target.programId) with
     | some p => p.name
     | none => ""⟩)).mergeSort (fun a b => decide (b.total ≤ a.total))

/-- Concrete fixture: an event with zero correct and zero incorrect trials
(tolerated-by-contract input, spec §3/§7). -/
def dpZero : DataPoint := ⟨⟨2024, 2, 1⟩, "c1", "p1", "t1", 0, 0, 30⟩

/-- C6 evaluation at the failing input: for a group with zero total trials the
Program Breakdown and Target Drill-Down accuracies are the JS `NaN` (`none`),
not a defined sentinel — only the Summary `avgAccuracy` and the monthly
accuracy are guarded (sentinel 0). -/
theorem zero_trials_accuracy_nan :
    (programBreakdown [prog1] [dpZero]).map (fun r => r.accuracy) = [none] ∧
    (targetDrillDown none [tgt1] [prog1] [dpZero]).map (fun r => r.accuracy) = [none] ∧
    (stats [tgt1] [] [dpZero]).avgAccuracy = 0 ∧
    (cumulativeGraphData [dpZero]).map (fun p => p.accuracy) = [0] := by
  refine ⟨?_, ?_, by decide, ?_⟩
  · simp [programBreakdown, progGroups, bumpProg, jsAccuracy, dpZero, prog1]
  · simp [targetDrillDown, targetGroups, bumpTarget, jsAccuracy, dpZero, tgt1, prog1]
  · simp [cumulativeGraphData, monthlyBuckets, monthKeys, insertKey, monthKeyOf,
      monthCorrect, monthIncorrect, cumulScan, dpZero]

/-- C8 counterexample: the empty string matches no event of the concrete
subset, yet focusing on it does not return the empty row list — `""` is JS
falsy, so the source takes the unfocused branch and emits the full rows. -/
theorem targetDrillDown_empty_focus_not_empty :
    targetDrillDown (some ("")) [tgt1] [prog1] [ev0] ≠ [] := by
  simp [targetDrillDown, targetGroups, bumpTarget, jsAccuracy, ev0, tgt1, prog1]

/-- C8 amended: focusing the Target Drill-Down Reducer on a *non-empty*
(JS-truthy) target id that matches no event of the filtered subset (in
particular any id absent from the Target reference table) yields the empty
row list; the empty-string id is falsy and degrades to the unfocused view
over the whole subset instead. -/
theorem targetDrillDown_unmatched_empty (tA : List Target) (tP : List Program)
    (fd : List DataPoint) (tid : String) (hne : tid ≠ "")
    (h : ∀ dp ∈ fd, dp.targetId ≠ tid) :
    targetDrillDown (some tid) tA tP fd = [] := by
  have hf : fd.filter (fun d => d.targetId == tid) = [] := by
    rw [List.filter_eq_nil_iff]
    intro dp hdp
    simp [h dp hdp]
  have htr : (tid != ("")) = true := by
    simp [hne]
  simp [targetDrillDown, htr, hf, targetGroups]

/-- Witness for C8 at a concrete subset and a nonexistent (truthy) focused id. -/
theorem targetDrillDown_unmatched_empty_witness :
    targetDrillDown (some ("zzz")) [tgt1] [prog1] [ev0] = [] :=
  targetDrillDown_unmatched_empty [tgt1] [prog1] [ev0] ("zzz") (by decide) (by decide)

/-- The keys of the `Filters` state that hold selection lists, as passed to
`toggleFilter`. -/
inductive FacetKey where
  | clientIds
  | programIds
  | categories
  | therapists
  | targetIds
deriving DecidableEq, Repr

/-- `prev[key]` for a list-valued facet key. -/
def getFacet (f : Filters) : FacetKey → List String
  | .clientIds => f.clientIds
  | .programIds => f.programIds
  | .categories => f.categories
  | .therapists => f.therapists
  | .targetIds => f.targetIds

/-- `{ ...prev, [key]: updated }` for a list-valued facet key. -/
def setFacet (f : Filters) : FacetKey → List String → Filters
  | .clientIds, l => { f with clientIds := l }
  | .programIds, l => { f with programIds := l }
  | .categories, l => { f with categories := l }
  | .therapists, l => { f with therapists := l }
  | .targetIds, l => { f with targetIds := l }

/-- `toggleFilter` (`src/app/page.tsx` lines 232–240): remove the value when
present, append it when absent, on the named facet only. -/
def toggleFilter (key : FacetKey) (value : String) (prev : Filters) : Filters :=
  setFacet prev key
    (if (getFacet prev key).contains value then
      (getFacet prev key).filter (fun v => v != value)
    else getFacet prev key ++ [value])

theorem getFacet_setFacet_same (f : Filters) (key : FacetKey) (l : List String) :
    getFacet (setFacet f key l) key = l := by
  cases key <;> rfl

theorem getFacet_setFacet_other (f : Filters) (key : FacetKey) (l : List String)
    (k : FacetKey) (h : k ≠ key) : getFacet (setFacet f key l) k = getFacet f k := by
  cases key <;> cases k <;> first | rfl | exact absurd rfl h

theorem setFacet_getFacet (f : Filters) (key : FacetKey) :
    setFacet f key (getFacet f key) = f := by
  cases key <;> rfl

theorem setFacet_setFacet (f : Filters) (key : FacetKey) (l1 l2 : List String) :
    setFacet (setFacet f key l1) key l2 = setFacet f key l2 := by
  cases key <;> rfl

theorem setFacet_dateStart (f : Filters) (key : FacetKey) (l : List String) :
    (setFacet f key l).dateStart = f.dateStart := by
  cases key <;> rfl

theorem setFacet_dateEnd (f : Filters) (key : FacetKey) (l : List String) :
    (setFacet f key l).dateEnd = f.dateEnd := by
  cases key <;> rfl

theorem setFacet_minMastery (f : Filters) (key : FacetKey) (l : List String) :
    (setFacet f key l).minMastery = f.minMastery := by
  cases key <;> rfl

theorem setFacet_maxMastery (f : Filters) (key : FacetKey) (l : List String) :
    (setFacet f key l).maxMastery = f.maxMastery := by
  cases key <;> rfl

/-- C10: toggling a value that is absent from a facet's list twice restores
the Filter Specification exactly, and any single toggle changes only the
named facet — every other facet list, the date range, and the mastery bounds
are unchanged. -/
theorem toggleFilter_spec (f : Filters) (key : FacetKey) (v : String) :
    (v ∉ getFacet f key → toggleFilter key v (toggleFilter key v f) = f) ∧
    (∀ k, k ≠ key → getFacet (toggleFilter key v f) k = getFacet f k) ∧
    (toggleFilter key v f).dateStart = f.dateStart ∧
    (toggleFilter key v f).dateEnd = f.dateEnd ∧
    (toggleFilter key v f).minMastery = f.minMastery ∧
    (toggleFilter key v f).maxMastery = f.maxMastery := by
  refine ⟨?_, fun k hk => getFacet_setFacet_other f key _ k hk,
    setFacet_dateStart f key _, setFacet_dateEnd f key _,
    setFacet_minMastery f key _, setFacet_maxMastery f key _⟩
  intro hv
  have hc : (getFacet f key).contains v = false := by
    cases hcc : (getFacet f key).contains v
    · rfl
    · exact absurd ((contains_true_iff _ _).mp hcc) hv
  have h1 : toggleFilter key v f = setFacet f key (getFacet f key ++ [v]) := by
    unfold toggleFilter
    rw [hc]
    simp
  rw [h1]
  unfold toggleFilter
  rw [getFacet_setFacet_same]
  have hc2 : (getFacet f key ++ [v]).contains v = true :=
    (contains_true_iff _ _).mpr (by simp)
  rw [hc2]
  have hfil : (getFacet f key ++ [v]).filter (fun x => x != v) = getFacet f key := by
    rw [List.filter_append]
    have hself : (getFacet f key).filter (fun x => x != v) = getFacet f key :=
      List.filter_eq_self.mpr (fun x hx => by
        simp only [bne_iff_ne, ne_eq, decide_eq_true_eq]
        exact fun he => hv (he ▸ hx))
    rw [hself]
    simp
  simp only [if_true]
  rw [hfil, setFacet_setFacet, setFacet_getFacet]

/-- Witness for C10: toggling "c9" (absent) twice on `clientIds` of the
concrete specification restores it, and a single toggle leaves `programIds`
unchanged. -/
theorem toggleFilter_spec_witness :
    toggleFilter FacetKey.clientIds ("c9") (toggleFilter FacetKey.clientIds ("c9") f0) = f0 ∧
    getFacet (toggleFilter FacetKey.clientIds ("c9") f0) FacetKey.programIds =
      getFacet f0 FacetKey.programIds :=
  ⟨(toggleFilter_spec f0 FacetKey.clientIds ("c9")).1 (by decide),
   (toggleFilter_spec f0 FacetKey.clientIds ("c9")).2.1 FacetKey.programIds (by decide)⟩

end Dashboard
